import Mathlib

/-!
Verification development for the dirsync repository.

The embedding models the per-task synchronization engine of the repository:
the `Sync` task record (sync.go, type `Sync`), its constructor `NewSync`,
the control operations `TriggerSync`, `PauseSync`, `ResumeSync`, `setError`,
one execution attempt `SyncDirectories`, the scheduling-loop body of
`Sync.Start`, the registry `SyncManager` with its by-id operations, and the
fallback tree copier `syncWithFileCopy`/`copyFile` (legacy sync.go) over an
abstract filesystem.

Go `time.Time` values are modelled as natural numbers, with 0 standing for
the zero value. External effects of an attempt (stat calls, directory
creation, pipe creation, subprocess spawn, streamed output, exit status)
are supplied by an `Env` record, and the filesystem mutations an attempt
performs are reported as a list of `FsAct` actions.
-/

namespace DirSync

/-- Timestamps: Go time.Time modelled as a natural number, 0 = zero value. -/
abbrev Time := Nat

/-- The Sync task record, from type Sync in sync.go. -/
structure Sync where
  id : String
  sourcePath : String
  destinationPath : String
  isSyncing : Bool
  paused : Bool
  lastSync : Time
  nextSyncTime : Time
  output : String
  lastError : String
deriving Repr, DecidableEq

/-- NewSync from sync.go: builds a fresh task record. The interval argument
is accepted and ignored, exactly as in the source. The current instant is
passed explicitly as now. -/
def NewSync (sourcePath destPath : String) (interval : Int) (now : Time) : Sync :=
  { id := sourcePath ++ ":" ++ destPath
    sourcePath := sourcePath
    destinationPath := destPath
    isSyncing := false
    paused := false
    lastSync := 0
    nextSyncTime := now
    output := ""
    lastError := "" }

/-- TriggerSync from sync.go: reset the schedule to now and unpause. -/
def TriggerSync (s : Sync) (now : Time) : Sync :=
  { s with nextSyncTime := now, paused := false }

/-- PauseSync from sync.go: set the paused flag; append a note only when a
sync is in flight. -/
def PauseSync (s : Sync) : Sync :=
  { s with paused := true
           output := if s.isSyncing then s.output ++ "\nSync paused by user" else s.output }

/-- ResumeSync from sync.go: clear the paused flag and append a note. -/
def ResumeSync (s : Sync) : Sync :=
  { s with paused := false, output := s.output ++ "\nSync resumed by user" }

/-- setError from sync.go: clear isSyncing, record the message, append an
Error line to the output log. -/
def setError (s : Sync) (errMsg : String) : Sync :=
  { s with isSyncing := false
           lastError := errMsg
           output := s.output ++ "\nError: " ++ errMsg }

/-- Error classification for the failure paths of one execution attempt. -/
inductive SyncErr
  | sourceMissing
  | emptyCheckFailed
  | destCreateFailed
  | rsyncMissing
  | stdoutPipeFailed
  | stderrPipeFailed
  | startFailed
  | exitFailed
deriving Repr, DecidableEq

/-- Filesystem mutations performed by one execution attempt. -/
inductive FsAct
  | mkdirDest (path : String) (mode : Nat)
  | rsyncRun (flags : List String) (source dest : String)
deriving Repr, DecidableEq

/-- Environment of one execution attempt: results of the external calls the
attempt makes, in source order. -/
structure Env where
  sourceExists : Bool
  emptyCheck : Except String Bool
  destExists : Bool
  mkdirResult : Except String Unit
  rsyncFound : Bool
  stdoutPipe : Except String Unit
  stderrPipe : Except String Unit
  startResult : Except String Unit
  pausedMidRun : Bool
  streamed : String
  waitErr : Option String
  now : Time
deriving Repr

/-- The strings.HasSuffix check of the execution attempt: does the source
path end in a slash. -/
def hasSlashSuffix (s : String) : Bool :=
  s.data.getLast? = some '/'

/-- Header line written at the start of every execution attempt. -/
def startHeader (s : Sync) : String :=
  "Starting sync from " ++ s.sourcePath ++ " to " ++ s.destinationPath ++ "\n"

/-- One execution attempt: Sync.SyncDirectories from sync.go, sequentialized.
Returns the final task state, the error outcome (none = nil return), and the
list of filesystem actions performed. The streaming goroutines are collapsed
into the buffer equation: the output buffer starts from the attempt output
at capture time and the streamed subprocess lines are appended to it. -/
def SyncDirectories (s0 : Sync) (env : Env) : Sync × Option SyncErr × List FsAct :=
  if s0.paused then (s0, none, [])
  else
    let s := { s0 with isSyncing := true, output := startHeader s0, lastError := "" }
    if env.sourceExists = false then
      (setError s ("Source path does not exist: " ++ s.sourcePath), some .sourceMissing, [])
    else
      match env.emptyCheck with
      | .error e =>
          (setError s ("Error checking if source directory is empty: " ++ e),
           some .emptyCheckFailed, [])
      | .ok true =>
          ({ s with isSyncing := false, lastSync := env.now
                    output := s.output ++ "\nSource directory " ++ s.sourcePath ++
                      " is empty, nothing to sync" },
           none, [])
      | .ok false =>
          let destStep : Except String (Sync × List FsAct) :=
            if env.destExists then .ok (s, [])
            else
              match env.mkdirResult with
              | .error e => .error e
              | .ok _ =>
                  .ok ({ s with output := s.output ++ "\nCreated destination directory: " ++
                          s.destinationPath },
                       [FsAct.mkdirDest s.destinationPath 0o755])
          match destStep with
          | .error e =>
              (setError s ("Failed to create destination directory: " ++ e),
               some .destCreateFailed, [])
          | .ok (s1, acts) =>
              if env.rsyncFound = false then
                let s2 := setError s1 "rsync command not found. Please install rsync and try again."
                ({ s2 with paused := true }, some .rsyncMissing, acts)
              else
                let srcArg :=
                  if hasSlashSuffix s1.sourcePath then s1.sourcePath else s1.sourcePath ++ "/"
                match env.stdoutPipe with
                | .error e =>
                    (setError s1 ("Failed to create stdout pipe: " ++ e),
                     some .stdoutPipeFailed, acts)
                | .ok _ =>
                  match env.stderrPipe with
                  | .error e =>
                      (setError s1 ("Failed to create stderr pipe: " ++ e),
                       some .stderrPipeFailed, acts)
                  | .ok _ =>
                    match env.startResult with
                    | .error e =>
                        (setError s1 ("Failed to start rsync: " ++ e),
                         some .startFailed, acts)
                    | .ok _ =>
                        let acts2 := acts ++ [FsAct.rsyncRun ["-avzP"] srcArg s1.destinationPath]
                        let buffer := s1.output ++ env.streamed
                        if env.pausedMidRun then
                          ({ s1 with output := buffer ++ "\nSync paused by user\n"
                                     isSyncing := false },
                           none, acts2)
                        else
                          match env.waitErr with
                          | some e =>
                              (setError { s1 with output := buffer } ("rsync error: " ++ e),
                               some .exitFailed, acts2)
                          | none =>
                              ({ s1 with isSyncing := false, lastSync := env.now
                                         output := buffer ++ "\nSync completed successfully" },
                               none, acts2)

/-- One cycle of the scheduling loop launched by Sync.Start: when paused the
loop only sleeps and re-checks; otherwise it runs one attempt and advances
the schedule by the interval passed to Start. The returned flag records
whether an attempt ran. -/
def loopStep (s : Sync) (env : Env) (interval : Nat) : Sync × Bool :=
  if s.paused then (s, false)
  else
    let r := SyncDirectories s env
    ({ r.1 with nextSyncTime := env.now + interval }, true)

/-- The task registry, from type SyncManager in sync.go. -/
structure SyncManager where
  Syncs : List Sync
deriving Repr, DecidableEq

/-- NewSyncManager from sync.go. -/
def NewSyncManager : SyncManager := ⟨[]⟩

/-- AddSync from sync.go: build a task and append it to the registry,
returning the new registry and the task handle. -/
def AddSync (sm : SyncManager) (sourcePath destPath : String) (interval : Int) (now : Time) :
    SyncManager × Sync :=
  let sync := NewSync sourcePath destPath interval now
  (⟨sm.Syncs ++ [sync]⟩, sync)

/-- GetSyncByID from sync.go: linear scan returning the first task whose id
matches, or the nil result. -/
def GetSyncByID (sm : SyncManager) (id : String) : Option Sync :=
  sm.Syncs.find? (fun s => s.id == id)

/-- Loop body of PauseSyncByID: pause the first matching task. -/
def pauseFirst : List Sync → String → List Sync × Bool
  | [], _ => ([], false)
  | s :: rest, i =>
      if s.id = i then (PauseSync s :: rest, true)
      else
        let r := pauseFirst rest i
        (s :: r.1, r.2)

/-- PauseSyncByID from sync.go. -/
def PauseSyncByID (sm : SyncManager) (id : String) : SyncManager × Bool :=
  let r := pauseFirst sm.Syncs id
  (⟨r.1⟩, r.2)

/-- Loop body of ResumeSyncByID: resume the first matching task. -/
def resumeFirst : List Sync → String → List Sync × Bool
  | [], _ => ([], false)
  | s :: rest, i =>
      if s.id = i then (ResumeSync s :: rest, true)
      else
        let r := resumeFirst rest i
        (s :: r.1, r.2)

/-- ResumeSyncByID from sync.go. -/
def ResumeSyncByID (sm : SyncManager) (id : String) : SyncManager × Bool :=
  let r := resumeFirst sm.Syncs id
  (⟨r.1⟩, r.2)

/-- The strings.Split of Go, on a single separator character: splits the
character list at every separator, yielding at least one segment. -/
def splitOnChar (c : Char) : List Char → List (List Char)
  | [] => [[]]
  | x :: xs =>
      if x = c then [] :: splitOnChar c xs
      else
        match splitOnChar c xs with
        | h :: t => (x :: h) :: t
        | [] => [[x]]

/-- Pair splitting in StartSyncProcess: strings.Split on a colon must give
exactly two parts, otherwise the pair is skipped. -/
def splitPair (pair : String) : Option (String × String) :=
  match (splitOnChar ':' pair.data).map (fun l => String.mk l) with
  | [a, b] => some (a, b)
  | _ => none

/-- StartSyncProcess from sync.go: populate the registry from the configured
pairs via AddSync, skipping malformed pairs. -/
def StartSyncProcess (sm : SyncManager) (syncPairs : List String) (syncInterval : Int)
    (now : Time) : SyncManager :=
  syncPairs.foldl
    (fun acc pair =>
      match splitPair pair with
      | some (src, dst) => (AddSync acc src dst syncInterval now).1
      | none => acc)
    sm

/-! Abstract filesystem model for the fallback copier (legacy sync.go:
syncWithFileCopy and copyFile). A path is a list of name segments relative
to the destination root; the destination tree is an association list from
paths to entries. The source tree is presented as the walk enumeration that
filepath.Walk produces: a list of (relative path, entry) pairs, the root
entry "." excluded. -/

/-- Relative filesystem path: a list of name segments. -/
abbrev Path := List String

/-- A filesystem entry: a regular file with its byte content and permission
bits, or a directory with its permission bits. -/
inductive Entry
  | file (content : List Nat) (mode : Nat)
  | dir (mode : Nat)
deriving Repr, DecidableEq

/-- Whether an entry is a directory. -/
def Entry.isDir : Entry → Bool
  | .dir _ => true
  | .file _ _ => false

/-- The destination tree: an association list from paths to entries. -/
abbrev Fs := List (Path × Entry)

/-- Look up the entry at a path. -/
def fsFind (fs : Fs) (p : Path) : Option Entry :=
  match fs with
  | [] => none
  | (q, e) :: rest => if q = p then some e else fsFind rest p

/-- Create or overwrite the entry at a path. -/
def fsSet (fs : Fs) (p : Path) (e : Entry) : Fs :=
  match fs with
  | [] => [(p, e)]
  | (q, f) :: rest => if q = p then (q, e) :: rest else (q, f) :: fsSet rest p e

/-- The nonempty prefixes of a path, shortest first; the targets touched by
os.MkdirAll on that path. -/
def pathSteps (p : Path) : List Path :=
  (List.range p.length).map fun i => p.take (i + 1)

/-- Create the directories of the given target list in order, skipping the
ones that already exist. -/
def mkdirSteps (fs : Fs) (l : List Path) (mode : Nat) : Fs :=
  match l with
  | [] => fs
  | q :: rest =>
      match fsFind fs q with
      | some _ => mkdirSteps fs rest mode
      | none => mkdirSteps (fsSet fs q (Entry.dir mode)) rest mode

/-- os.MkdirAll as used by the fallback copier: create the directory and any
missing ancestors with the given permission bits; existing entries are left
untouched. -/
def mkdirAll (fs : Fs) (p : Path) (mode : Nat) : Fs :=
  mkdirSteps fs (pathSteps p) mode

/-- copyFile from legacy sync.go: the destination file ends up with exactly
the source bytes and, through the final chmod, the source permission bits. -/
def copyFile (fs : Fs) (dest : Path) (content : List Nat) (mode : Nat) : Fs :=
  fsSet fs dest (Entry.file content mode)

/-- syncWithFileCopy from legacy sync.go, expressed over the walk
enumeration of the source tree: directories are recreated via MkdirAll with
the source permission bits, files are copied via copyFile. -/
def syncWithFileCopy (fs : Fs) (walk : List (Path × Entry)) : Fs :=
  match walk with
  | [] => fs
  | (rel, Entry.dir m) :: rest => syncWithFileCopy (mkdirAll fs rel m) rest
  | (rel, Entry.file c m) :: rest => syncWithFileCopy (copyFile fs rel c m) rest

/-- The relative paths enumerated by a walk. -/
def relPaths (walk : List (Path × Entry)) : List Path :=
  walk.map Prod.fst

/-- Whether a walk lists the given path as a directory entry. -/
def dirListed (walk : List (Path × Entry)) (q : Path) : Bool :=
  walk.any fun pe => decide (pe.1 = q) && pe.2.isDir

/-- Well-formedness of a walk enumeration: every strict ancestor of a listed
directory is itself listed as a directory. filepath.Walk enumerations have
this shape. -/
def walkClosed (walk : List (Path × Entry)) : Bool :=
  walk.all fun pe =>
    match pe.2 with
    | .dir _ => (pathSteps pe.1).all fun q => decide (q = pe.1) || dirListed walk q
    | .file _ _ => true

/-- Paths a walk can possibly touch: the copied files and, for directories,
every target of the MkdirAll call. -/
def touches (walk : List (Path × Entry)) (q : Path) : Bool :=
  walk.any fun pe =>
    match pe.2 with
    | .dir _ => decide (q ∈ pathSteps pe.1)
    | .file _ _ => decide (q = pe.1)

/-- Ordering discipline of filepath.Walk: no listed path is a strict
ancestor of an earlier listed path (parents are enumerated before their
children). -/
def parentsFirstAux (seen : List Path) : List (Path × Entry) → Bool
  | [] => true
  | pe :: rest =>
      (seen.all fun q => !(decide (pe.1 <+: q) && decide (pe.1 ≠ q))) &&
        parentsFirstAux (pe.1 :: seen) rest

/-- A walk enumerates parents before children. -/
def parentsFirst (walk : List (Path × Entry)) : Bool :=
  parentsFirstAux [] walk

end DirSync


namespace DirSync

theorem fsFind_fsSet (fs : Fs) (p q : Path) (e : Entry) :
    fsFind (fsSet fs p e) q = if p = q then some e else fsFind fs q := by
  induction fs with
  | nil => simp [fsSet, fsFind]
  | cons hd tl ih =>
      obtain ⟨r, f⟩ := hd
      by_cases hrp : r = p
      · subst hrp
        by_cases hrq : r = q <;> simp [fsSet, fsFind, hrq]
      · by_cases hrq : r = q
        · subst hrq
          have hpq : p ≠ r := fun h => hrp h.symm
          simp [fsSet, fsFind, hrp, hpq]
        · simp [fsSet, fsFind, hrp, hrq, ih]

theorem mkdirSteps_frame (l : List Path) (fs : Fs) (q : Path) (m : Nat) (h : q ∉ l) :
    fsFind (mkdirSteps fs l m) q = fsFind fs q := by
  induction l generalizing fs with
  | nil => rfl
  | cons hd tl ih =>
      have hq : q ≠ hd := fun he => h (by rw [he]; exact List.mem_cons_self hd tl)
      have htl : q ∉ tl := fun ht => h (List.mem_cons_of_mem hd ht)
      cases hfind : fsFind fs hd with
      | some e => simp [mkdirSteps, hfind, ih _ htl]
      | none =>
          simp only [mkdirSteps, hfind]
          rw [ih _ htl, fsFind_fsSet, if_neg (fun he => hq he.symm)]

theorem mkdirSteps_some (l : List Path) (fs : Fs) (q : Path) (e : Entry) (m : Nat)
    (h : fsFind fs q = some e) :
    fsFind (mkdirSteps fs l m) q = some e := by
  induction l generalizing fs with
  | nil => exact h
  | cons hd tl ih =>
      cases hfind : fsFind fs hd with
      | some f => simpa [mkdirSteps, hfind] using ih _ h
      | none =>
          have hq : hd ≠ q := fun he => by rw [he, h] at hfind; exact Option.noConfusion hfind
          simp only [mkdirSteps, hfind]
          exact ih _ (by rw [fsFind_fsSet]; simp [hq, h])

theorem pathSteps_split (p : Path) (hne : p ≠ []) :
    ∃ init, pathSteps p = init ++ [p] ∧ ∀ q ∈ init, q.length < p.length := by
  have hlen : 0 < p.length := List.length_pos.mpr hne
  have hsucc : p.length - 1 + 1 = p.length := Nat.succ_pred_eq_of_pos hlen
  refine ⟨(List.range (p.length - 1)).map fun i => p.take (i + 1), ?_, ?_⟩
  · unfold pathSteps
    conv_lhs => rw [← hsucc]
    rw [List.range_succ, List.map_append, List.map_singleton, hsucc, List.take_length]
  · intro q hq
    simp only [List.mem_map, List.mem_range] at hq
    obtain ⟨i, hi, rfl⟩ := hq
    rw [List.length_take]
    omega

theorem mem_pathSteps (p q : Path) (h : q ∈ pathSteps p) : q ≠ [] ∧ q <+: p := by
  simp only [pathSteps, List.mem_map, List.mem_range] at h
  obtain ⟨i, hi, rfl⟩ := h
  refine ⟨?_, List.take_prefix _ _⟩
  intro he
  have hlen := congrArg List.length he
  rw [List.length_take] at hlen
  simp only [List.length_nil] at hlen
  omega

theorem mkdirAll_frame (fs : Fs) (p q : Path) (m : Nat) (h : q ∉ pathSteps p) :
    fsFind (mkdirAll fs p m) q = fsFind fs q :=
  mkdirSteps_frame _ _ _ _ h

theorem mkdirAll_some (fs : Fs) (p q : Path) (e : Entry) (m : Nat)
    (h : fsFind fs q = some e) :
    fsFind (mkdirAll fs p m) q = some e :=
  mkdirSteps_some _ _ _ _ _ h

theorem mkdirSteps_append (fs : Fs) (l1 l2 : List Path) (m : Nat) :
    mkdirSteps fs (l1 ++ l2) m = mkdirSteps (mkdirSteps fs l1 m) l2 m := by
  induction l1 generalizing fs with
  | nil => rfl
  | cons hd tl ih =>
      cases hfind : fsFind fs hd <;> simp [mkdirSteps, hfind, ih]

theorem mkdirAll_create (fs : Fs) (p : Path) (m : Nat) (hne : p ≠ [])
    (h : fsFind fs p = none) :
    fsFind (mkdirAll fs p m) p = some (Entry.dir m) := by
  obtain ⟨init, hsteps, hlt⟩ := pathSteps_split p hne
  have hnotin : p ∉ init := fun hin => Nat.lt_irrefl _ (hlt p hin)
  unfold mkdirAll
  rw [hsteps, mkdirSteps_append]
  have hnone : fsFind (mkdirSteps fs init m) p = none := by
    rw [mkdirSteps_frame _ _ _ _ hnotin]; exact h
  simp [mkdirSteps, hnone, fsFind_fsSet]

end DirSync

namespace DirSync

theorem walk_preserves_some (walk : List (Path × Entry)) (fs : Fs) (q : Path) (e : Entry)
    (h : fsFind fs q = some e) (hq : q ∉ relPaths walk) :
    fsFind (syncWithFileCopy fs walk) q = some e := by
  induction walk generalizing fs with
  | nil => exact h
  | cons hd tl ih =>
      have hq1 : q ≠ hd.1 := by
        intro he
        exact hq (by rw [he]; exact List.mem_cons_self _ _)
      have hqtl : q ∉ relPaths tl := fun ht => hq (List.mem_cons_of_mem _ ht)
      obtain ⟨rel, e0⟩ := hd
      cases e0 with
      | dir m =>
          exact ih (mkdirAll fs rel m) (mkdirAll_some _ _ _ _ _ h) hqtl
      | file c m =>
          refine ih _ ?_ hqtl
          rw [copyFile, fsFind_fsSet, if_neg (fun he => hq1 he.symm)]
          exact h

theorem syncWithFileCopy_frame (walk : List (Path × Entry)) (fs : Fs) (q : Path)
    (h : touches walk q = false) :
    fsFind (syncWithFileCopy fs walk) q = fsFind fs q := by
  induction walk generalizing fs with
  | nil => rfl
  | cons hd tl ih =>
      simp only [touches, List.any_cons, Bool.or_eq_false_iff] at h
      obtain ⟨hhd, htl⟩ := h
      have htl' : touches tl q = false := htl
      obtain ⟨rel, e0⟩ := hd
      cases e0 with
      | dir m =>
          simp only [decide_eq_false_iff_not] at hhd
          rw [syncWithFileCopy, ih _ htl', mkdirAll_frame _ _ _ _ hhd]
      | file c m =>
          simp only [decide_eq_false_iff_not] at hhd
          rw [syncWithFileCopy, ih _ htl', copyFile, fsFind_fsSet,
            if_neg (fun he => hhd he.symm)]

theorem walkClosed_not_touches (walk : List (Path × Entry)) (q : Path)
    (hc : walkClosed walk = true) (hq : q ∉ relPaths walk) :
    touches walk q = false := by
  rw [touches, List.any_eq_false]
  intro pe hpe
  obtain ⟨rel, e0⟩ := pe
  cases e0 with
  | file c m =>
      intro hdec
      have he := of_decide_eq_true hdec
      exact hq (by rw [he]; exact List.mem_map_of_mem Prod.fst hpe)
  | dir m =>
      intro hdec
      have hmem := of_decide_eq_true hdec
      rw [walkClosed, List.all_eq_true] at hc
      have := hc _ hpe
      simp only [List.all_eq_true] at this
      have hdisj := this q hmem
      rw [Bool.or_eq_true, decide_eq_true_iff] at hdisj
      rcases hdisj with he | hlisted
      · exact hq (by rw [he]; exact List.mem_map_of_mem Prod.fst hpe)
      · rw [dirListed, List.any_eq_true] at hlisted
        obtain ⟨pe2, hpe2, hcond⟩ := hlisted
        rw [Bool.and_eq_true, decide_eq_true_iff] at hcond
        exact hq (hcond.1 ▸ List.mem_map_of_mem Prod.fst hpe2)

end DirSync

namespace DirSync

theorem walk_file_copied (walk : List (Path × Entry)) (fs : Fs) (rel : Path)
    (c : List Nat) (m : Nat) (hnd : (relPaths walk).Nodup)
    (hmem : (rel, Entry.file c m) ∈ walk) :
    fsFind (syncWithFileCopy fs walk) rel = some (Entry.file c m) := by
  induction walk generalizing fs with
  | nil => cases hmem
  | cons hd tl ih =>
      rw [relPaths, List.map_cons, List.nodup_cons] at hnd
      rcases List.mem_cons.mp hmem with heq | htl
      · subst heq
        rw [syncWithFileCopy]
        refine walk_preserves_some tl _ _ _ ?_ hnd.1
        rw [copyFile, fsFind_fsSet, if_pos rfl]
      · obtain ⟨rel0, e0⟩ := hd
        cases e0 with
        | dir m0 => exact ih _ hnd.2 htl
        | file c0 m0 => exact ih _ hnd.2 htl

theorem parentsFirstAux_mem (walk : List (Path × Entry)) (seen : List Path)
    (rel : Path) (e : Entry) (hpf : parentsFirstAux seen walk = true)
    (hmem : (rel, e) ∈ walk) (q : Path) (hq : q ∈ seen) :
    ¬(rel <+: q ∧ rel ≠ q) := by
  induction walk generalizing seen with
  | nil => cases hmem
  | cons hd tl ih =>
      obtain ⟨rel0, e0⟩ := hd
      rw [parentsFirstAux, Bool.and_eq_true] at hpf
      rcases List.mem_cons.mp hmem with heq | htl
      · injection heq with h1 h2
        subst h1
        have hall := hpf.1
        rw [List.all_eq_true] at hall
        have hthis := hall q hq
        rw [Bool.not_eq_true', Bool.and_eq_false_iff] at hthis
        rintro ⟨hpre, hne⟩
        rcases hthis with hcase | hcase
        · exact (decide_eq_false_iff_not.mp hcase) hpre
        · exact (decide_eq_false_iff_not.mp hcase) hne
      · exact ih (rel0 :: seen) hpf.2 htl (List.mem_cons_of_mem _ hq)

theorem walk_dir_created (walk : List (Path × Entry)) (seen : List Path) (fs : Fs)
    (rel : Path) (m : Nat) (hpf : parentsFirstAux seen walk = true)
    (hnd : (relPaths walk).Nodup) (hmem : (rel, Entry.dir m) ∈ walk)
    (hnone : fsFind fs rel = none) (hne : rel ≠ []) :
    fsFind (syncWithFileCopy fs walk) rel = some (Entry.dir m) := by
  induction walk generalizing seen fs with
  | nil => cases hmem
  | cons hd tl ih =>
      rw [relPaths, List.map_cons, List.nodup_cons] at hnd
      rw [parentsFirstAux, Bool.and_eq_true] at hpf
      rcases List.mem_cons.mp hmem with heq | htl
      · subst heq
        rw [syncWithFileCopy]
        refine walk_preserves_some tl _ _ _ ?_ hnd.1
        exact mkdirAll_create fs rel m hne hnone
      · obtain ⟨rel0, e0⟩ := hd
        have hrne : rel ≠ rel0 := by
          intro he
          subst he
          have hm : rel ∈ List.map Prod.fst tl := List.mem_map_of_mem Prod.fst htl
          exact hnd.1 hm
        cases e0 with
        | file c0 m0 =>
            refine ih (rel0 :: seen) _ hpf.2 hnd.2 htl ?_
            rw [copyFile, fsFind_fsSet, if_neg (fun he => hrne he.symm)]
            exact hnone
        | dir m0 =>
            refine ih (rel0 :: seen) _ hpf.2 hnd.2 htl ?_
            have hnotin : rel ∉ pathSteps rel0 := by
              intro hin
              obtain ⟨-, hpre⟩ := mem_pathSteps rel0 rel hin
              exact parentsFirstAux_mem tl (rel0 :: seen) rel (Entry.dir m) hpf.2 htl
                rel0 (List.mem_cons_self _ _) ⟨hpre, hrne⟩
            rw [mkdirAll_frame _ _ _ _ hnotin]
            exact hnone

end DirSync


namespace DirSync

/-- A string with a nonempty left part is nonempty. -/
theorem append_ne_empty (a b : String) (h : a ≠ "") : a ++ b ≠ "" := by
  intro he
  apply h
  have hd := congrArg String.data he
  rw [String.data_append] at hd
  have h2 : a.data = [] := (List.append_eq_nil.mp hd).1
  cases a with
  | mk l => cases h2; rfl

end DirSync

namespace DirSync

theorem pauseFirst_hit (pre : List Sync) (s : Sync) (post : List Sync) (i : String)
    (hpre : ∀ t ∈ pre, t.id ≠ i) (hs : s.id = i) :
    pauseFirst (pre ++ s :: post) i = (pre ++ PauseSync s :: post, true) := by
  induction pre with
  | nil => simp [pauseFirst, hs]
  | cons p rest ih =>
      have hp : p.id ≠ i := hpre p (List.mem_cons_self _ _)
      have hrest : ∀ t ∈ rest, t.id ≠ i := fun t ht => hpre t (List.mem_cons_of_mem _ ht)
      simp [pauseFirst, hp, ih hrest]

theorem pauseFirst_miss (l : List Sync) (i : String) (h : ∀ t ∈ l, t.id ≠ i) :
    pauseFirst l i = (l, false) := by
  induction l with
  | nil => rfl
  | cons p rest ih =>
      have hp : p.id ≠ i := h p (List.mem_cons_self _ _)
      have hrest : ∀ t ∈ rest, t.id ≠ i := fun t ht => h t (List.mem_cons_of_mem _ ht)
      simp [pauseFirst, hp, ih hrest]

theorem resumeFirst_hit (pre : List Sync) (s : Sync) (post : List Sync) (i : String)
    (hpre : ∀ t ∈ pre, t.id ≠ i) (hs : s.id = i) :
    resumeFirst (pre ++ s :: post) i = (pre ++ ResumeSync s :: post, true) := by
  induction pre with
  | nil => simp [resumeFirst, hs]
  | cons p rest ih =>
      have hp : p.id ≠ i := hpre p (List.mem_cons_self _ _)
      have hrest : ∀ t ∈ rest, t.id ≠ i := fun t ht => hpre t (List.mem_cons_of_mem _ ht)
      simp [resumeFirst, hp, ih hrest]

theorem resumeFirst_miss (l : List Sync) (i : String) (h : ∀ t ∈ l, t.id ≠ i) :
    resumeFirst l i = (l, false) := by
  induction l with
  | nil => rfl
  | cons p rest ih =>
      have hp : p.id ≠ i := h p (List.mem_cons_self _ _)
      have hrest : ∀ t ∈ rest, t.id ≠ i := fun t ht => h t (List.mem_cons_of_mem _ ht)
      simp [resumeFirst, hp, ih hrest]

theorem findSync_hit (pre : List Sync) (s : Sync) (post : List Sync) (i : String)
    (hpre : ∀ t ∈ pre, t.id ≠ i) (hs : s.id = i) :
    (pre ++ s :: post).find? (fun t => t.id == i) = some s := by
  induction pre with
  | nil =>
      rw [List.nil_append]
      exact List.find?_cons_of_pos _ (by simp [hs])
  | cons p rest ih =>
      have hp : p.id ≠ i := hpre p (List.mem_cons_self _ _)
      have hrest : ∀ t ∈ rest, t.id ≠ i := fun t ht => hpre t (List.mem_cons_of_mem _ ht)
      rw [List.cons_append, List.find?_cons_of_neg _ (by simp [hp])]
      exact ih hrest

theorem findSync_miss (l : List Sync) (i : String) (h : ∀ t ∈ l, t.id ≠ i) :
    l.find? (fun t => t.id == i) = none := by
  induction l with
  | nil => rfl
  | cons p rest ih =>
      have hp : p.id ≠ i := h p (List.mem_cons_self _ _)
      have hrest : ∀ t ∈ rest, t.id ≠ i := fun t ht => h t (List.mem_cons_of_mem _ ht)
      rw [List.find?_cons_of_neg _ (by simp [hp])]
      exact ih hrest

/-- C10: with duplicate ids in the registry, GetSyncByID returns the first
matching task in insertion order, and PauseSyncByID/ResumeSyncByID mutate
only that first matching task and return true, leaving every later task with
the same id unmodified; with no matching task, GetSyncByID returns none and
the by-id mutators return false without modifying anything. -/
theorem claim_C10 :
    (∀ (pre post : List Sync) (s : Sync) (i : String),
      (∀ t ∈ pre, t.id ≠ i) → s.id = i →
        GetSyncByID ⟨pre ++ s :: post⟩ i = some s ∧
        PauseSyncByID ⟨pre ++ s :: post⟩ i = (⟨pre ++ PauseSync s :: post⟩, true) ∧
        ResumeSyncByID ⟨pre ++ s :: post⟩ i = (⟨pre ++ ResumeSync s :: post⟩, true)) ∧
    (∀ (l : List Sync) (i : String), (∀ t ∈ l, t.id ≠ i) →
        GetSyncByID ⟨l⟩ i = none ∧
        PauseSyncByID ⟨l⟩ i = (⟨l⟩, false) ∧
        ResumeSyncByID ⟨l⟩ i = (⟨l⟩, false)) := by
  constructor
  · intro pre post s i hpre hs
    refine ⟨findSync_hit pre s post i hpre hs, ?_, ?_⟩
    · simp [PauseSyncByID, pauseFirst_hit pre s post i hpre hs]
    · simp [ResumeSyncByID, resumeFirst_hit pre s post i hpre hs]
  · intro l i h
    refine ⟨findSync_miss l i h, ?_, ?_⟩
    · simp [PauseSyncByID, pauseFirst_miss l i h]
    · simp [ResumeSyncByID, resumeFirst_miss l i h]

/-- Witness for C10 at a registry holding two tasks with the same id: the
operations act on the first and leave the second unmodified; a fresh id is
not found. -/
theorem claim_C10_witness :
    (GetSyncByID ⟨[NewSync "a" "b" 1 0, NewSync "a" "b" 1 9]⟩ "a:b" =
       some (NewSync "a" "b" 1 0) ∧
     PauseSyncByID ⟨[NewSync "a" "b" 1 0, NewSync "a" "b" 1 9]⟩ "a:b" =
       (⟨[PauseSync (NewSync "a" "b" 1 0), NewSync "a" "b" 1 9]⟩, true) ∧
     ResumeSyncByID ⟨[NewSync "a" "b" 1 0, NewSync "a" "b" 1 9]⟩ "a:b" =
       (⟨[ResumeSync (NewSync "a" "b" 1 0), NewSync "a" "b" 1 9]⟩, true)) ∧
    (GetSyncByID ⟨[NewSync "a" "b" 1 0]⟩ "c:d" = none ∧
     PauseSyncByID ⟨[NewSync "a" "b" 1 0]⟩ "c:d" = (⟨[NewSync "a" "b" 1 0]⟩, false) ∧
     ResumeSyncByID ⟨[NewSync "a" "b" 1 0]⟩ "c:d" = (⟨[NewSync "a" "b" 1 0]⟩, false)) := by
  constructor
  · have h := claim_C10.1 [] [NewSync "a" "b" 1 9] (NewSync "a" "b" 1 0) "a:b"
      (by intro t ht; cases ht) (by decide)
    simpa using h
  · exact claim_C10.2 [NewSync "a" "b" 1 0] "c:d" (by decide)

/-- C8 as stated is false: AddSync appends unconditionally, so populating
the registry with the same pair twice yields two registered tasks with equal
ids. -/
theorem claim_C8_counterexample :
    ((AddSync (AddSync NewSyncManager "a" "b" 60 0).1 "a" "b" 60 0).1.Syncs.map
        (fun s => s.id)) = ["a:b", "a:b"] ∧
    ¬ (((AddSync (AddSync NewSyncManager "a" "b" 60 0).1 "a" "b" 60 0).1.Syncs.map
        (fun s => s.id)).Nodup) := by
  constructor
  · rfl
  · decide

/-- C8 amended: AddSync neither collapses nor rejects a pair whose id is
already registered; it always appends one more task with id source:dest, so
duplicate configured pairs produce duplicate registered ids and uniqueness
holds only when the configured pairs are pairwise distinct. -/
theorem claim_C8 (sm : SyncManager) (src dst : String) (i : Int) (now : Time) :
    (AddSync sm src dst i now).1.Syncs.map (fun s => s.id) =
      sm.Syncs.map (fun s => s.id) ++ [src ++ ":" ++ dst] := by
  simp [AddSync, NewSync]

/-- C9: the task constructed by NewSync does not depend on the interval
argument; its fields are exactly id source:dest, isSyncing false, paused
false, zero lastSync, nextSyncTime now, empty output and lastError; and the
rescheduling interval actually used by the loop is the one passed to Start. -/
theorem claim_C9 :
    (∀ src dst i1 i2 now, NewSync src dst i1 now = NewSync src dst i2 now) ∧
    (∀ src dst i now,
      (NewSync src dst i now).id = src ++ ":" ++ dst ∧
      (NewSync src dst i now).isSyncing = false ∧
      (NewSync src dst i now).paused = false ∧
      (NewSync src dst i now).lastSync = 0 ∧
      (NewSync src dst i now).nextSyncTime = now ∧
      (NewSync src dst i now).output = "" ∧
      (NewSync src dst i now).lastError = "") ∧
    (∀ s env iv, s.paused = false → (loopStep s env iv).1.nextSyncTime = env.now + iv) := by
  refine ⟨fun src dst i1 i2 now => rfl, fun src dst i now => ?_, fun s env iv h => ?_⟩
  · exact ⟨rfl, rfl, rfl, rfl, rfl, rfl, rfl⟩
  · simp [loopStep, h]

/-- Witness for C9: two constructions differing only in the interval give
the same task, and the loop reschedules with the interval given to Start. -/
theorem claim_C9_witness :
    NewSync "a" "b" 1 5 = NewSync "a" "b" 99 5 ∧
    (loopStep (NewSync "a" "b" 1 5)
      { sourceExists := true, emptyCheck := Except.ok true, destExists := true
        mkdirResult := Except.ok (), rsyncFound := true, stdoutPipe := Except.ok ()
        stderrPipe := Except.ok (), startResult := Except.ok (), pausedMidRun := false
        streamed := "", waitErr := none, now := 7 } 60).1.nextSyncTime = 7 + 60 := by
  constructor
  · exact claim_C9.1 "a" "b" 1 99 5
  · exact claim_C9.2.2 _ _ 60 (by decide)

end DirSync

namespace DirSync

/-- C4: a freshly constructed task has isSyncing false, and an execution
attempt started from an idle task terminates with isSyncing false on every
return path of SyncDirectories. -/
theorem claim_C4 :
    (∀ src dst i now, (NewSync src dst i now).isSyncing = false) ∧
    (∀ s env, s.isSyncing = false → (SyncDirectories s env).1.isSyncing = false) := by
  constructor
  · intro src dst i now; rfl
  · intro s env h
    unfold SyncDirectories
    split
    · simpa using h
    · split
      · simp [setError]
      · split <;> try simp [setError]
        split <;> try simp [setError]
        split <;> try simp [setError]
        · split <;> try simp [setError]
          split <;> try simp [setError]
          split <;> try simp [setError]
          split <;> try simp [setError]
          split <;> simp [setError]

/-- Witness for C4: a paused idle task stays idle through an attempt, and a
fully successful attempt also ends idle. -/
theorem claim_C4_witness :
    (SyncDirectories (NewSync "src" "dst" 60 0)
      { sourceExists := true, emptyCheck := Except.ok false, destExists := true
        mkdirResult := Except.ok (), rsyncFound := true, stdoutPipe := Except.ok ()
        stderrPipe := Except.ok (), startResult := Except.ok (), pausedMidRun := false
        streamed := "line\n", waitErr := none, now := 3 }).1.isSyncing = false :=
  claim_C4.2 (NewSync "src" "dst" 60 0)
    { sourceExists := true, emptyCheck := Except.ok false, destExists := true
      mkdirResult := Except.ok (), rsyncFound := true, stdoutPipe := Except.ok ()
      stderrPipe := Except.ok (), startResult := Except.ok (), pausedMidRun := false
      streamed := "line\n", waitErr := none, now := 3 }
    (by decide)

/-- C5: with an existing, empty source directory an attempt is a successful
no-op: it returns nil, performs no filesystem action (in particular the
destination is not created), stamps lastSync, leaves lastError empty,
appends the informational note to the fresh header, and ends idle; repeating
the attempt against an empty source again succeeds without touching the
destination. -/
theorem claim_C5 (s : Sync) (env : Env) (hp : s.paused = false)
    (hsrc : env.sourceExists = true) (hempty : env.emptyCheck = Except.ok true) :
    (SyncDirectories s env).2.1 = none ∧
    (SyncDirectories s env).2.2 = [] ∧
    (SyncDirectories s env).1.isSyncing = false ∧
    (SyncDirectories s env).1.lastSync = env.now ∧
    (SyncDirectories s env).1.lastError = "" ∧
    (SyncDirectories s env).1.output =
      startHeader s ++ "\nSource directory " ++ s.sourcePath ++
        " is empty, nothing to sync" ∧
    (∀ env2, env2.sourceExists = true → env2.emptyCheck = Except.ok true →
      (SyncDirectories (SyncDirectories s env).1 env2).2.1 = none ∧
      (SyncDirectories (SyncDirectories s env).1 env2).2.2 = []) := by
  have hstep : SyncDirectories s env =
      ({ s with isSyncing := false, paused := s.paused, lastSync := env.now
                lastError := ""
                output := startHeader s ++ "\nSource directory " ++ s.sourcePath ++
                  " is empty, nothing to sync" },
       none, []) := by
    unfold SyncDirectories
    rw [if_neg (by simp [hp]), if_neg (by simp [hsrc]), hempty]
  refine ⟨by rw [hstep], by rw [hstep], by rw [hstep], by rw [hstep], by rw [hstep],
    by rw [hstep], ?_⟩
  intro env2 hsrc2 hempty2
  rw [hstep]
  constructor <;>
    · unfold SyncDirectories
      rw [if_neg (by simp [hp]), if_neg (by simp [hsrc2]), hempty2]

end DirSync

namespace DirSync

/-- Witness for C5: a concrete attempt against an existing empty source
returns success, performs no filesystem action, stamps lastSync and keeps
lastError empty; a repeated attempt also succeeds with no action. -/
theorem claim_C5_witness :
    (SyncDirectories (NewSync "s" "d" 5 0)
      { sourceExists := true, emptyCheck := Except.ok true, destExists := false
        mkdirResult := Except.ok (), rsyncFound := false, stdoutPipe := Except.ok ()
        stderrPipe := Except.ok (), startResult := Except.ok (), pausedMidRun := false
        streamed := "", waitErr := none, now := 4 }).2.1 = none ∧
    (SyncDirectories (NewSync "s" "d" 5 0)
      { sourceExists := true, emptyCheck := Except.ok true, destExists := false
        mkdirResult := Except.ok (), rsyncFound := false, stdoutPipe := Except.ok ()
        stderrPipe := Except.ok (), startResult := Except.ok (), pausedMidRun := false
        streamed := "", waitErr := none, now := 4 }).2.2 = [] ∧
    (SyncDirectories (NewSync "s" "d" 5 0)
      { sourceExists := true, emptyCheck := Except.ok true, destExists := false
        mkdirResult := Except.ok (), rsyncFound := false, stdoutPipe := Except.ok ()
        stderrPipe := Except.ok (), startResult := Except.ok (), pausedMidRun := false
        streamed := "", waitErr := none, now := 4 }).1.lastSync = 4 := by
  have h := claim_C5 (NewSync "s" "d" 5 0)
    { sourceExists := true, emptyCheck := Except.ok true, destExists := false
      mkdirResult := Except.ok (), rsyncFound := false, stdoutPipe := Except.ok ()
      stderrPipe := Except.ok (), startResult := Except.ok (), pausedMidRun := false
      streamed := "", waitErr := none, now := 4 }
    rfl rfl rfl
  exact ⟨h.1, h.2.1, h.2.2.2.1⟩

end DirSync

namespace DirSync

/-- C6: over a well-formed source walk (distinct paths, parents enumerated
before children), the fallback copier leaves every source file present at
the destination with exactly the source bytes and the source permission
bits, and creates every source directory (absent from the destination
beforehand) with the source permission bits. -/
theorem claim_C6 (fs : Fs) (walk : List (Path × Entry))
    (hnd : (relPaths walk).Nodup) (hpf : parentsFirst walk = true) :
    (∀ rel c m, (rel, Entry.file c m) ∈ walk →
      fsFind (syncWithFileCopy fs walk) rel = some (Entry.file c m)) ∧
    (∀ rel m, (rel, Entry.dir m) ∈ walk → fsFind fs rel = none → rel ≠ [] →
      fsFind (syncWithFileCopy fs walk) rel = some (Entry.dir m)) := by
  constructor
  · intro rel c m hmem
    exact walk_file_copied walk fs rel c m hnd hmem
  · intro rel m hmem hnone hne
    exact walk_dir_created walk [] fs rel m hpf hnd hmem hnone hne

/-- Witness for C6 at a concrete source tree with a directory, a nested
file and a top-level file, copied into an empty destination. -/
theorem claim_C6_witness :
    fsFind (syncWithFileCopy []
      [(["d"], Entry.dir 0o755), (["d", "f"], Entry.file [65, 66] 0o644),
       (["g"], Entry.file [67] 0o600)]) ["d", "f"] = some (Entry.file [65, 66] 0o644) ∧
    fsFind (syncWithFileCopy []
      [(["d"], Entry.dir 0o755), (["d", "f"], Entry.file [65, 66] 0o644),
       (["g"], Entry.file [67] 0o600)]) ["d"] = some (Entry.dir 0o755) := by
  have h := claim_C6 []
    [(["d"], Entry.dir 0o755), (["d", "f"], Entry.file [65, 66] 0o644),
     (["g"], Entry.file [67] 0o600)]
    (by decide) (by decide)
  exact ⟨h.1 ["d", "f"] [65, 66] 0o644 (by decide), h.2 ["d"] 0o755 (by decide) rfl (by decide)⟩

end DirSync


namespace DirSync

/-- Every possible shape of the action list of one execution attempt: no
actions, only the destination-directory creation, or those followed by one
rsync invocation whose flag list is exactly the archive/verbose/compress/
progress flags. -/
theorem acts_shape (s : Sync) (env : Env) :
    (SyncDirectories s env).2.2 = [] ∨
    (SyncDirectories s env).2.2 = [FsAct.mkdirDest s.destinationPath 0o755] ∨
    ((SyncDirectories s env).2.2 = [FsAct.rsyncRun ["-avzP"]
        (if hasSlashSuffix s.sourcePath then s.sourcePath else s.sourcePath ++ "/")
        s.destinationPath] ∨
     (SyncDirectories s env).2.2 = FsAct.mkdirDest s.destinationPath 0o755 ::
       [FsAct.rsyncRun ["-avzP"]
        (if hasSlashSuffix s.sourcePath then s.sourcePath else s.sourcePath ++ "/")
        s.destinationPath]) := by
  unfold SyncDirectories
  repeat' split
  all_goals simp_all

/-- C2: the rsync invocation an attempt builds always carries exactly the
flags -avzP and in particular never a delete-on-destination flag, and the
fallback walk leaves every destination path that is not a source walk path
byte-for-byte unchanged. -/
theorem claim_C2 :
    (∀ s env flags a b, FsAct.rsyncRun flags a b ∈ (SyncDirectories s env).2.2 →
      flags = ["-avzP"] ∧ "--delete" ∉ flags) ∧
    (∀ fs walk q, walkClosed walk = true → q ∉ relPaths walk →
      fsFind (syncWithFileCopy fs walk) q = fsFind fs q) := by
  constructor
  · intro s env flags a b hmem
    have hsh := acts_shape s env
    have hflags : flags = ["-avzP"] := by
      rcases hsh with h | h | h | h <;> rw [h] at hmem <;> simp at hmem <;> tauto
    subst hflags
    exact ⟨rfl, by decide⟩
  · intro fs walk q hc hq
    exact syncWithFileCopy_frame walk fs q (walkClosed_not_touches walk q hc hq)


/-- Witness for C2: a concrete attempt that runs rsync uses exactly the
-avzP flags, and a concrete fallback walk leaves a destination-only entry
unchanged. -/
theorem claim_C2_witness :
    (["-avzP"] = ["-avzP"] ∧ "--delete" ∉ ["-avzP"]) ∧
    fsFind (syncWithFileCopy [(["keep"], Entry.file [9] 0o600)]
        [(["sub"], Entry.dir 0o700), (["sub", "x"], Entry.file [1, 2] 0o644)]) ["keep"] =
      fsFind [(["keep"], Entry.file [9] 0o600)] ["keep"] := by
  constructor
  · exact claim_C2.1
      ⟨"a:b", "a", "b", false, false, 0, 0, "", ""⟩
      { sourceExists := true, emptyCheck := Except.ok false, destExists := true
        mkdirResult := Except.ok (), rsyncFound := true, stdoutPipe := Except.ok ()
        stderrPipe := Except.ok (), startResult := Except.ok (), pausedMidRun := false
        streamed := "", waitErr := none, now := 0 }
      ["-avzP"] "a/" "b" (by decide)
  · exact claim_C2.2 [(["keep"], Entry.file [9] 0o600)]
      [(["sub"], Entry.dir 0o700), (["sub", "x"], Entry.file [1, 2] 0o644)]
      ["keep"] (by decide) (by decide)

end DirSync


namespace DirSync

/-- C1 as stated is false on the task engine: with every precondition
satisfied and rsync absent, the attempt does not fall back to a tree copy
but fails with the rsyncMissing error, performs no copy action, and pauses
the task. -/
theorem claim_C1_counterexample :
    (SyncDirectories ⟨"a:b", "a", "b", false, false, 0, 0, "", ""⟩
      { sourceExists := true, emptyCheck := Except.ok false, destExists := true
        mkdirResult := Except.ok (), rsyncFound := false, stdoutPipe := Except.ok ()
        stderrPipe := Except.ok (), startResult := Except.ok (), pausedMidRun := false
        streamed := "", waitErr := none, now := 3 }).2.1 = some SyncErr.rsyncMissing ∧
    (SyncDirectories ⟨"a:b", "a", "b", false, false, 0, 0, "", ""⟩
      { sourceExists := true, emptyCheck := Except.ok false, destExists := true
        mkdirResult := Except.ok (), rsyncFound := false, stdoutPipe := Except.ok ()
        stderrPipe := Except.ok (), startResult := Except.ok (), pausedMidRun := false
        streamed := "", waitErr := none, now := 3 }).2.2 = [] ∧
    (SyncDirectories ⟨"a:b", "a", "b", false, false, 0, 0, "", ""⟩
      { sourceExists := true, emptyCheck := Except.ok false, destExists := true
        mkdirResult := Except.ok (), rsyncFound := false, stdoutPipe := Except.ok ()
        stderrPipe := Except.ok (), startResult := Except.ok (), pausedMidRun := false
        streamed := "", waitErr := none, now := 3 }).1.paused = true := by
  refine ⟨rfl, rfl, rfl⟩

/-- C1 amended: after the precondition checks, the tool lookup decides the
outcome as follows: if rsync is not found the attempt fails via setError
with the rsync-not-found message, performs no mirroring action, and
additionally pauses the task until manually resumed (there is no fallback
copier on this path; the recursive tree copy exists only in the legacy
package-level SyncDirectories); if rsync is found and the pipes and spawn
succeed, the streaming-subprocess strategy runs. -/
theorem claim_C1 (s : Sync) (env : Env) (hp : s.paused = false)
    (hsrc : env.sourceExists = true) (hempty : env.emptyCheck = Except.ok false)
    (hdest : env.destExists = true ∨ env.mkdirResult = Except.ok ()) :
    (env.rsyncFound = false →
      (SyncDirectories s env).2.1 = some SyncErr.rsyncMissing ∧
      (SyncDirectories s env).1.paused = true ∧
      (SyncDirectories s env).1.lastError =
        "rsync command not found. Please install rsync and try again." ∧
      (∀ flags a b, FsAct.rsyncRun flags a b ∉ (SyncDirectories s env).2.2)) ∧
    (env.rsyncFound = true → env.stdoutPipe = Except.ok () → env.stderrPipe = Except.ok () →
      env.startResult = Except.ok () →
      FsAct.rsyncRun ["-avzP"]
        (if hasSlashSuffix s.sourcePath then s.sourcePath else s.sourcePath ++ "/")
        s.destinationPath ∈ (SyncDirectories s env).2.2) := by
  constructor
  · intro hrf
    cases hde : env.destExists with
    | true =>
        refine ⟨?_, ?_, ?_, ?_⟩ <;>
          · unfold SyncDirectories
            simp [hp, hsrc, hempty, hde, hrf, setError]
    | false =>
        rcases hdest with h | hmk
        · rw [hde] at h; cases h
        · refine ⟨?_, ?_, ?_, ?_⟩ <;>
            · unfold SyncDirectories
              simp [hp, hsrc, hempty, hde, hmk, hrf, setError]
  · intro hrf hso hse2 hsr
    cases hde : env.destExists with
    | true =>
        cases hpm : env.pausedMidRun <;> cases hwe : env.waitErr <;>
          (unfold SyncDirectories
           simp [hp, hsrc, hempty, hde, hrf, hso, hse2, hsr, hpm, hwe, setError])
    | false =>
        rcases hdest with h | hmk
        · rw [hde] at h; cases h
        · cases hpm : env.pausedMidRun <;> cases hwe : env.waitErr <;>
            (unfold SyncDirectories
             simp [hp, hsrc, hempty, hde, hmk, hrf, hso, hse2, hsr, hpm, hwe, setError])

/-- Witness for C1 amended: a concrete attempt without rsync fails with the
rsyncMissing error, and the same attempt with rsync present runs the
subprocess strategy. -/
theorem claim_C1_witness :
    (SyncDirectories ⟨"x:y", "x", "y", false, false, 0, 0, "", ""⟩
      { sourceExists := true, emptyCheck := Except.ok false, destExists := false
        mkdirResult := Except.ok (), rsyncFound := false, stdoutPipe := Except.ok ()
        stderrPipe := Except.ok (), startResult := Except.ok (), pausedMidRun := false
        streamed := "", waitErr := none, now := 1 }).2.1 = some SyncErr.rsyncMissing ∧
    FsAct.rsyncRun ["-avzP"] "x/" "y" ∈
      (SyncDirectories ⟨"x:y", "x", "y", false, false, 0, 0, "", ""⟩
        { sourceExists := true, emptyCheck := Except.ok false, destExists := false
          mkdirResult := Except.ok (), rsyncFound := true, stdoutPipe := Except.ok ()
          stderrPipe := Except.ok (), startResult := Except.ok (), pausedMidRun := false
          streamed := "", waitErr := none, now := 1 }).2.2 := by
  constructor
  · exact (claim_C1 ⟨"x:y", "x", "y", false, false, 0, 0, "", ""⟩
      { sourceExists := true, emptyCheck := Except.ok false, destExists := false
        mkdirResult := Except.ok (), rsyncFound := false, stdoutPipe := Except.ok ()
        stderrPipe := Except.ok (), startResult := Except.ok (), pausedMidRun := false
        streamed := "", waitErr := none, now := 1 }
      rfl rfl rfl (Or.inr rfl)).1 rfl |>.1
  · have h := (claim_C1 ⟨"x:y", "x", "y", false, false, 0, 0, "", ""⟩
      { sourceExists := true, emptyCheck := Except.ok false, destExists := false
        mkdirResult := Except.ok (), rsyncFound := true, stdoutPipe := Except.ok ()
        stderrPipe := Except.ok (), startResult := Except.ok (), pausedMidRun := false
        streamed := "", waitErr := none, now := 1 }
      rfl rfl rfl (Or.inr rfl)).2 rfl rfl rfl rfl
    simpa [hasSlashSuffix] using h

end DirSync

namespace DirSync

theorem outcome_cases (s : Sync) (env : Env) (hp : s.paused = false) :
    ((SyncDirectories s env).2.1 = none) ∨
    (∃ e, (SyncDirectories s env).2.1 = some e ∧
      (SyncDirectories s env).1.isSyncing = false ∧
      (SyncDirectories s env).1.lastError ≠ "" ∧
      ((SyncDirectories s env).1.paused = true ↔ e = SyncErr.rsyncMissing)) := by
  unfold SyncDirectories
  repeat' split
  all_goals dsimp only [setError]
  all_goals
    first
    | exact Or.inl rfl
    | (refine Or.inr ⟨_, rfl, rfl, ?_, ?_⟩
       · first
         | exact append_ne_empty _ _ (by decide)
         | decide
       · simp [hp])

end DirSync

namespace DirSync

/-- C3 amended: setError performs exactly the unified transition (clears
isSyncing, sets lastError, appends an Error line); every failed attempt ends
with isSyncing false and a nonempty lastError; all failure paths leave the
task unpaused and hence scheduler-retryable, with the single exception of
the tool-missing failure, which additionally pauses the task so that only an
explicit trigger or resume (both of which clear paused) can retry it. -/
theorem claim_C3 :
    (∀ s msg, (setError s msg).isSyncing = false ∧ (setError s msg).lastError = msg ∧
      (setError s msg).output = s.output ++ "\nError: " ++ msg) ∧
    (∀ s env e, s.paused = false → (SyncDirectories s env).2.1 = some e →
      (SyncDirectories s env).1.isSyncing = false ∧
      (SyncDirectories s env).1.lastError ≠ "" ∧
      ((SyncDirectories s env).1.paused = true ↔ e = SyncErr.rsyncMissing)) ∧
    (∀ s now, (TriggerSync s now).paused = false) ∧
    (∀ s, (ResumeSync s).paused = false) := by
  refine ⟨fun s msg => ⟨rfl, rfl, rfl⟩, ?_, fun s now => rfl, fun s => rfl⟩
  intro s env e hp hres
  rcases outcome_cases s env hp with h | ⟨e2, he2, h1, h2, h3⟩
  · rw [hres] at h; cases h
  · have h4 := hres.symm.trans he2
    injection h4 with h5
    subst h5
    exact ⟨h1, h2, h3⟩

/-- C3 as stated is false: the rsync-not-found failure path pauses the
task after setError, and the scheduling loop skips paused tasks, so this
error leaves the task in a state the scheduler will not retry on its own. -/
theorem claim_C3_counterexample :
    ((SyncDirectories ⟨"p:q", "p", "q", false, false, 0, 0, "", ""⟩
      { sourceExists := true, emptyCheck := Except.ok false, destExists := true
        mkdirResult := Except.ok (), rsyncFound := false, stdoutPipe := Except.ok ()
        stderrPipe := Except.ok (), startResult := Except.ok (), pausedMidRun := false
        streamed := "", waitErr := none, now := 2 }).2.1).isSome = true ∧
    (SyncDirectories ⟨"p:q", "p", "q", false, false, 0, 0, "", ""⟩
      { sourceExists := true, emptyCheck := Except.ok false, destExists := true
        mkdirResult := Except.ok (), rsyncFound := false, stdoutPipe := Except.ok ()
        stderrPipe := Except.ok (), startResult := Except.ok (), pausedMidRun := false
        streamed := "", waitErr := none, now := 2 }).1.paused = true ∧
    loopStep (SyncDirectories ⟨"p:q", "p", "q", false, false, 0, 0, "", ""⟩
      { sourceExists := true, emptyCheck := Except.ok false, destExists := true
        mkdirResult := Except.ok (), rsyncFound := false, stdoutPipe := Except.ok ()
        stderrPipe := Except.ok (), startResult := Except.ok (), pausedMidRun := false
        streamed := "", waitErr := none, now := 2 }).1
      { sourceExists := true, emptyCheck := Except.ok false, destExists := true
        mkdirResult := Except.ok (), rsyncFound := true, stdoutPipe := Except.ok ()
        stderrPipe := Except.ok (), startResult := Except.ok (), pausedMidRun := false
        streamed := "", waitErr := none, now := 99 } 60 =
      ((SyncDirectories ⟨"p:q", "p", "q", false, false, 0, 0, "", ""⟩
        { sourceExists := true, emptyCheck := Except.ok false, destExists := true
          mkdirResult := Except.ok (), rsyncFound := false, stdoutPipe := Except.ok ()
          stderrPipe := Except.ok (), startResult := Except.ok (), pausedMidRun := false
          streamed := "", waitErr := none, now := 2 }).1, false) := by
  refine ⟨rfl, rfl, rfl⟩

/-- Witness for C3 amended: setError at a concrete state performs the
unified transition, and a concrete source-missing failure ends idle with a
nonempty error and without pausing. -/
theorem claim_C3_witness :
    ((setError ⟨"i:d", "i", "d", true, false, 1, 2, "log", ""⟩ "boom").isSyncing = false ∧
     (setError ⟨"i:d", "i", "d", true, false, 1, 2, "log", ""⟩ "boom").lastError = "boom" ∧
     (setError ⟨"i:d", "i", "d", true, false, 1, 2, "log", ""⟩ "boom").output =
       "log" ++ "\nError: " ++ "boom") ∧
    ((SyncDirectories ⟨"m:n", "m", "n", false, false, 0, 0, "", ""⟩
      { sourceExists := false, emptyCheck := Except.ok false, destExists := true
        mkdirResult := Except.ok (), rsyncFound := true, stdoutPipe := Except.ok ()
        stderrPipe := Except.ok (), startResult := Except.ok (), pausedMidRun := false
        streamed := "", waitErr := none, now := 2 }).1.isSyncing = false ∧
     (SyncDirectories ⟨"m:n", "m", "n", false, false, 0, 0, "", ""⟩
      { sourceExists := false, emptyCheck := Except.ok false, destExists := true
        mkdirResult := Except.ok (), rsyncFound := true, stdoutPipe := Except.ok ()
        stderrPipe := Except.ok (), startResult := Except.ok (), pausedMidRun := false
        streamed := "", waitErr := none, now := 2 }).1.lastError ≠ "" ∧
     ((SyncDirectories ⟨"m:n", "m", "n", false, false, 0, 0, "", ""⟩
      { sourceExists := false, emptyCheck := Except.ok false, destExists := true
        mkdirResult := Except.ok (), rsyncFound := true, stdoutPipe := Except.ok ()
        stderrPipe := Except.ok (), startResult := Except.ok (), pausedMidRun := false
        streamed := "", waitErr := none, now := 2 }).1.paused = true ↔
        SyncErr.sourceMissing = SyncErr.rsyncMissing)) := by
  constructor
  · exact claim_C3.1 ⟨"i:d", "i", "d", true, false, 1, 2, "log", ""⟩ "boom"
  · exact claim_C3.2.1 ⟨"m:n", "m", "n", false, false, 0, 0, "", ""⟩
      { sourceExists := false, emptyCheck := Except.ok false, destExists := true
        mkdirResult := Except.ok (), rsyncFound := true, stdoutPipe := Except.ok ()
        stderrPipe := Except.ok (), startResult := Except.ok (), pausedMidRun := false
        streamed := "", waitErr := none, now := 2 }
      SyncErr.sourceMissing rfl rfl

end DirSync

namespace DirSync

/-- C7 amended: within one execution attempt the output log is append-only
(the attempt header is a prefix of the final output on every return path,
and setError, PauseSync and ResumeSync only append), but the start of each
attempt replaces the log with a fresh header instead of appending, so
prefix preservation does not hold across attempts. -/
theorem claim_C7 :
    (∀ s msg, s.output.data <+: (setError s msg).output.data) ∧
    (∀ s, s.output.data <+: (PauseSync s).output.data) ∧
    (∀ s, s.output.data <+: (ResumeSync s).output.data) ∧
    (∀ s env, s.paused = false →
      (startHeader s).data <+: (SyncDirectories s env).1.output.data) := by
  refine ⟨?_, ?_, ?_, ?_⟩
  · intro s msg
    simp only [setError, String.data_append, List.append_assoc]
    exact List.prefix_append _ _
  · intro s
    cases h : s.isSyncing <;>
      simp only [PauseSync, h, if_true, if_false, String.data_append, List.append_assoc] <;>
      first
      | exact List.prefix_rfl
      | exact List.prefix_append _ _
  · intro s
    simp only [ResumeSync, String.data_append, List.append_assoc]
    exact List.prefix_append _ _
  · intro s env hp
    unfold SyncDirectories
    repeat' split
    all_goals dsimp only [setError]
    all_goals
      first
      | simp_all
      | (simp only [String.data_append, List.append_assoc]
         first
         | exact List.prefix_append _ _
         | exact List.prefix_rfl)

/-- C7 as stated is false: an execution attempt begins by replacing the
output log with a fresh header line, so the previously recorded text is not
a prefix of the new content. -/
theorem claim_C7_counterexample :
    ¬ (("previous attempt log".data) <+:
       (SyncDirectories ⟨"a:b", "a", "b", false, false, 0, 0, "previous attempt log", ""⟩
        { sourceExists := false, emptyCheck := Except.ok false, destExists := true
          mkdirResult := Except.ok (), rsyncFound := true, stdoutPipe := Except.ok ()
          stderrPipe := Except.ok (), startResult := Except.ok (), pausedMidRun := false
          streamed := "", waitErr := none, now := 0 }).1.output.data) := by
  decide

/-- Witness for C7 amended: in a concrete successful attempt the header
written at the start of the attempt is a prefix of the final output. -/
theorem claim_C7_witness :
    (startHeader ⟨"w:z", "w", "z", false, false, 0, 0, "old", ""⟩).data <+:
      (SyncDirectories ⟨"w:z", "w", "z", false, false, 0, 0, "old", ""⟩
        { sourceExists := true, emptyCheck := Except.ok false, destExists := true
          mkdirResult := Except.ok (), rsyncFound := true, stdoutPipe := Except.ok ()
          stderrPipe := Except.ok (), startResult := Except.ok (), pausedMidRun := false
          streamed := "copied x\n", waitErr := none, now := 0 }).1.output.data :=
  claim_C7.2.2.2 ⟨"w:z", "w", "z", false, false, 0, 0, "old", ""⟩
    { sourceExists := true, emptyCheck := Except.ok false, destExists := true
      mkdirResult := Except.ok (), rsyncFound := true, stdoutPipe := Except.ok ()
      stderrPipe := Except.ok (), startResult := Except.ok (), pausedMidRun := false
      streamed := "copied x\n", waitErr := none, now := 0 } rfl

end DirSync
